import Mathlib

/-
Verification development for the ItemIdentifier overlay plugin.

The repository contains two revisions of the plugin:
  * the later revision (file `part_000`): visibility-scope filter
    ("Show Where"), dark-item overrides, singular scroll pattern;
  * the earlier revision (file `src/ItemIdentifier.ts`): no filter,
    plural scroll pattern, regex-based tag formatting.

Strings are modelled as `List Char`.  JavaScript regular expressions that
the classifier uses are translated into explicit suffix/prefix analyses;
each translation carries a comment with the original pattern and a note on
the capture semantics (lazy groups, greedy whitespace, backtracking).
The embedding assumes item names contain no newline characters (JS `.`
does not match newlines; real item names never contain them) and uses the
ASCII fragment of JS case conversion (item names are ASCII).
-/

/-- The ASCII whitespace characters recognised by the JS `\s` class and
`String.prototype.trim` that can occur in item names. -/
def isWsC (c : Char) : Bool :=
  c == ' ' || c == '\t' || c == '\n' || c == '\r' || c == '\x0b' || c == '\x0c'

/-- JS `toLowerCase` on the ASCII fragment. -/
def toLowerL (l : List Char) : List Char := l.map Char.toLower

/-- JS `trim`, left part. -/
def trimLeftC (l : List Char) : List Char := l.dropWhile isWsC

/-- JS `trim`, right part. -/
def trimRightC (l : List Char) : List Char := (l.reverse.dropWhile isWsC).reverse

/-- JS `String.prototype.trim`. -/
def trimC (l : List Char) : List Char := trimLeftC (trimRightC l)

/-- Convert a Lean string literal to the `List Char` representation. -/
def str (s : String) : List Char := s.data

/-- The apostrophe character (written via its code point). -/
def apos : Char := Char.ofNat 39

/-- Lookup in a JS object literal used as a string-to-string table
(`TABLE[key]`, keys are distinct). -/
def lookupL (table : List (List Char × List Char)) (key : List Char) :
    Option (List Char) :=
  match table with
  | [] => none
  | (k, v) :: rest => if key = k then some v else lookupL rest key

/-- `capitalize3` from both revisions: trim, take the first three
characters, first upper-case and the remainder lower-case. -/
def capitalize3 (s : List Char) : List Char :=
  let t := trimC s
  match t with
  | [] => []
  | c :: rest => Char.toUpper c :: (rest.take 2).map Char.toLower

-- The manual override tables (`MANUAL`) shared by both revisions.
-- (`MANUAL.jewelry` and `MANUAL.gem` are empty objects and are never
-- consulted by any rule, so they are not reproduced here.)

def manualLogs : List (List Char × List Char) :=
  [(str "reg", str "Norm"), (str "lucky", str "Luck"), (str "pine", str "Pine"),
   (str "deadwood", str "Dead"), (str "cherry", str "Cher"), (str "palm", str "Palm")]

def manualScroll : List (List Char × List Char) :=
  [(str "reg", str "Norm"), (str "lucky", str "Luck"), (str "pine", str "Pine"),
   (str "deadwood", str "Dead"), (str "palm", str "Palm")]

def manualBow : List (List Char × List Char) :=
  [(str "pine", str "Pine"), (str "deadwood", str "Dead"), (str "cherry", str "Cher"),
   (str "wooden", str "Wood"), (str "palm", str "Palm")]

def manualRoot : List (List Char × List Char) :=
  [(str "fiji", str "Fiji"), (str "maui", str "Maui"), (str "sardinian", str "Sard"),
   (str "grenada", str "Gren")]

def manualPotion : List (List Char × List Char) :=
  [(str "fishing", str "Fish"), (str "stamina", str "Stam"), (str "mining", str "Mine"),
   (str "smithing", str "Smth"), (str "mischief", str "Crim")]

def scrollMagical : List (List Char × List Char) :=
  [(str "fire", str "Fire"), (str "water", str "Wat"), (str "nature", str "Nat"),
   (str "fury", str "Fury"), (str "rage", str "Rage"), (str "blood", str "Bld"),
   (str "alchemy", str "Alch"), (str "energy", str "En"), (str "warp", str "Warp"),
   (str "magic", str "Mag")]

def potionMap : List (List Char × List Char) :=
  [(str "defense", str "Def"), (str "stamina", str "Stam"), (str "mining", str "Mine"),
   (str "smithing", str "Smth"), (str "lucky", str "Luck"), (str "sardinian", str "Sard")]

def gemMap : List (List Char × List Char) :=
  [(str "amethyst", str "Am"), (str "sapphire", str "Sap"), (str "emerald", str "Em"),
   (str "ruby", str "Ruby"), (str "citrine", str "Cit"), (str "diamond", str "Dia"),
   (str "carbonado", str "Carb")]

/-- `oreMap` of the later revision (includes silver). -/
def oreMap : List (List Char × List Char) :=
  [(str "coal", str "Coal"), (str "iron", str "Iron"), (str "coronium", str "Coro"),
   (str "celadium", str "Cela"), (str "gold", str "Gold"), (str "silver", str "Silv")]

/-- `barMap` of the later revision (includes silver). -/
def barMap : List (List Char × List Char) :=
  [(str "iron", str "Iron"), (str "coronium", str "Coro"),
   (str "celadium", str "Cela"), (str "gold", str "Gold"), (str "silver", str "Silv")]

/-- `oreMap` of the earlier revision (no silver entry). -/
def oreMapOld : List (List Char × List Char) :=
  [(str "coal", str "Coal"), (str "iron", str "Iron"), (str "coronium", str "Coro"),
   (str "celadium", str "Cela"), (str "gold", str "Gold")]

/-- `barMap` of the earlier revision (no silver entry). -/
def barMapOld : List (List Char × List Char) :=
  [(str "iron", str "Iron"), (str "coronium", str "Coro"),
   (str "celadium", str "Cela"), (str "gold", str "Gold")]

/-- The `DARK` exact-name table of the later revision. -/
def darkTable : List (List Char × List Char) :=
  [(str "coronium chainmail body", str "C Chain"),
   (str "coronium chestplate", str "C Plate"),
   (str "coronium platelegs", str "C Legs"),
   (str "coronium helm", str "C Helm"),
   (str "coronium full helm", str "C Fhelm"),
   (str "coronium gloves", str "C Glove"),
   (str "coronium hatchet", str "C Axe"),
   (str "coronium pickaxe", str "C Pick"),
   (str "coronium scimitar", str "C Scim"),
   (str "coronium longsword", str "C Long"),
   (str "coronium battleaxe", str "C Baxe"),
   (str "bandit mask", str "B Mask"),
   (str "black leather gloves", str "B Glove"),
   (str "damogui" ++ apos :: str "s staff", str "Damo")]

/-
Regex translations.  All matching is done on the already-trimmed name `n`
(`const n = name.trim()`), all literal comparison case-insensitively.
Every capture function below returns the regex capture *followed by the
`.trim()` that every use site in `deriveTag` applies to it*; in the
backtracking corner cases where the raw capture is all whitespace both the
raw capture and the whole capture region trim to `[]`, so returning the
trimmed region is extensionally the JS behaviour.
-/

/-- Capture of `/^(.*?)\s*WORD$/i` (used with WORD = logs, scroll,
scrolls).  The pattern matches exactly when the name ends with WORD
(case-insensitively); the lazy group is everything before WORD with the
maximal whitespace run going to `\s*`, which trims to `trimC` of the
whole part before WORD.  `revWord` is WORD reversed and lower-cased. -/
def suffixStarCapture (revWord : List Char) (n : List Char) : Option (List Char) :=
  let r := n.reverse
  if toLowerL (r.take revWord.length) = revWord then
    some (trimC (r.drop revWord.length).reverse)
  else none

/-- Capture of `/^(.+?)\s+WORD$/i` (used with WORD = bow, ore, bar, gem,
necklace-free forms).  The pattern matches exactly when the name ends with
WORD, the character before WORD is whitespace (`\s+`), and at least one
character precedes that whitespace; the lazy group plus `.trim()` is
`trimC` of the part before WORD. -/
def suffixWordCapture (revWord : List Char) (n : List Char) : Option (List Char) :=
  let r := n.reverse
  if toLowerL (r.take revWord.length) = revWord then
    match r.drop revWord.length with
    | c :: cs => if isWsC c ∧ cs ≠ [] then some (trimC ((c :: cs).reverse)) else none
    | [] => none
  else none

/-- `/^(.*?)\s*logs$/i` — logs rule pattern. -/
def logsCapture (n : List Char) : Option (List Char) := suffixStarCapture (str "sgol") n

/-- `/^(.*?)\s*scroll$/i` — scroll rule pattern of the later revision
(singular). -/
def scrollCapture (n : List Char) : Option (List Char) :=
  suffixStarCapture (str "llorcs") n

/-- `/^(.*?)\s*scrolls$/i` — scroll rule pattern of the earlier revision
(plural). -/
def scrollsCapture (n : List Char) : Option (List Char) :=
  suffixStarCapture (str "sllorcs") n

/-- Shared core of the root pattern: given the reversed part before
`root(s)?`, require the `\s+` (the character right before `root` must be
whitespace) and produce the trimmed lazy capture. -/
def rootCore (rcore : List Char) : Option (List Char) :=
  match rcore with
  | c :: _ => if isWsC c then some (trimC rcore.reverse) else none
  | [] => none

/-- `/^(.*?)\s+root(s)?$/i` — root rule pattern (both revisions).  The
name must end in `root` or `roots` preceded by at least one whitespace
character; the greedy optional `(s)?` makes the two suffixes mutually
exclusive. -/
def rootCapture (n : List Char) : Option (List Char) :=
  let r := n.reverse
  if toLowerL (r.take 5) = str "stoor" then rootCore (r.drop 5)
  else if toLowerL (r.take 4) = str "toor" then rootCore (r.drop 4)
  else none

/-- `/^potion of\s+(.+?)\s*\((\d+)\)$/i` — potion rule pattern.  Parsed
from the end: a literal `)`, a maximal nonempty digit run (the doses
capture), a literal `(`; the part before it must start with `potion of`
followed by at least one whitespace character and at least one further
character (`\s+` then the lazy type).  Returns (trimmed type, doses). -/
def potionCapture (n : List Char) : Option (List Char × List Char) :=
  match n.reverse with
  | ')' :: r1 =>
    let dr := r1.takeWhile Char.isDigit
    if dr = [] then none
    else
      match r1.drop dr.length with
      | '(' :: r2 =>
        let m := r2.reverse
        if toLowerL (m.take 9) = str "potion of" then
          match m.drop 9 with
          | c :: cs =>
            if isWsC c ∧ cs ≠ [] then some (trimC (c :: cs), dr.reverse) else none
          | [] => none
        else none
      | _ => none
  | _ => none

/-- `/^(.+?)\s+bow$/i` part of the bow pattern (also used as the
whole-name fallback when the optional `unstrung` group is not taken). -/
def tailCapture (n : List Char) : Option (List Char) := suffixWordCapture (str "wob") n

/-- Backtracking of the greedy `\s+` inside `(unstrung\s+)?`: the engine
first lets the group consume the maximal whitespace run (`k` characters)
and on failure gives characters back one at a time down to a single
whitespace character. -/
def bowGroup1 (rest : List Char) : Nat → Option (List Char)
  | 0 => none
  | k + 1 =>
    match tailCapture (rest.drop (k + 1)) with
    | some t => some t
    | none => bowGroup1 rest k

/-- `/^(unstrung\s+)?(.+?)\s+bow$/i` — bow rule pattern.  The optional
group is tried first (greedy `?`); if no whitespace budget makes the tail
match, the engine retries with the group absent on the whole name.
Returns (unstrung-group present, trimmed type capture). -/
def bowMatch (n : List Char) : Option (Bool × List Char) :=
  if toLowerL (n.take 8) = str "unstrung" then
    let rest := n.drop 8
    let m := (rest.takeWhile isWsC).length
    if m ≥ 1 then
      match bowGroup1 rest m with
      | some t => some (true, t)
      | none => (tailCapture n).map (fun t => (false, t))
    else (tailCapture n).map (fun t => (false, t))
  else (tailCapture n).map (fun t => (false, t))

/-- `/^coal$/i` — exact coal test. -/
def coalTest (n : List Char) : Bool := decide (toLowerL n = str "coal")

/-- `/^(silver|gold)\s+nugget$/i` — nugget pattern; `some true` for gold,
`some false` for silver. -/
def nuggetMatch (n : List Char) : Option Bool :=
  if toLowerL (n.take 6) = str "silver" ∧ (n.drop 6).takeWhile isWsC ≠ [] ∧
      toLowerL ((n.drop 6).dropWhile isWsC) = str "nugget" then some false
  else if toLowerL (n.take 4) = str "gold" ∧ (n.drop 4).takeWhile isWsC ≠ [] ∧
      toLowerL ((n.drop 4).dropWhile isWsC) = str "nugget" then some true
  else none

/-- `/^(.+?)\s+ore$/i` — ore pattern. -/
def oreCapture (n : List Char) : Option (List Char) := suffixWordCapture (str "ero") n

/-- `/^pig\s+iron\s+bar$/i` — the pig-iron-bar exclusion test. -/
def pigIronTest (n : List Char) : Bool :=
  let ln := toLowerL n
  let r1 := ln.drop 3
  let r2 := r1.dropWhile isWsC
  let r3 := r2.drop 4
  decide (ln.take 3 = str "pig" ∧ r1.takeWhile isWsC ≠ [] ∧ r2.take 4 = str "iron" ∧
    r3.takeWhile isWsC ≠ [] ∧ r3.dropWhile isWsC = str "bar")

/-- `/^(.+?)\s+bar$/i` — bar pattern. -/
def barCapture (n : List Char) : Option (List Char) := suffixWordCapture (str "rab") n

/-- `/monk'?s\s+necklace$/i` — unanchored test: the name must end with
`necklace`, preceded by a nonempty whitespace run, preceded by `monks` or
`monk's` (the `\s+` has to consume the whole run because `s` is not
whitespace). -/
def monkTest (n : List Char) : Bool :=
  let r := (toLowerL n).reverse
  let r2 := r.drop 8
  let r3 := r2.dropWhile isWsC
  decide (r.take 8 = str "ecalkcen" ∧ r2.takeWhile isWsC ≠ [] ∧
    (r3.take 5 = str "sknom" ∨ r3.take 6 = 's' :: apos :: str "knom"))

/-- Whether a character list starts with a whitespace character. -/
def headIsWs (l : List Char) : Bool :=
  match l with
  | c :: _ => isWsC c
  | [] => false

/-- Core of the jewelry pattern: the part after the metal must be
`\s+(.+?)\s+necklace` — it ends with `necklace`, the region before it
starts and ends with whitespace and has length at least three (two
whitespace runs around a nonempty lazy middle).  Returns the trimmed
middle capture. -/
def jewCore (rest : List Char) : Option (List Char) :=
  let r := rest.reverse
  let core := (r.drop 8).reverse
  if toLowerL (r.take 8) = str "ecalkcen" ∧ headIsWs core = true ∧
      headIsWs core.reverse = true ∧ 3 ≤ core.length then
    some (trimC core)
  else none

/-- `/^(silver|gold)\s+(.+?)\s+(necklace)$/i` — jewelry pattern;
`some (isGold, mid)`. -/
def jewCapture (n : List Char) : Option (Bool × List Char) :=
  if toLowerL (n.take 6) = str "silver" then
    (jewCore (n.drop 6)).map (fun m => (false, m))
  else if toLowerL (n.take 4) = str "gold" then
    (jewCore (n.drop 4)).map (fun m => (true, m))
  else none

/-- `/^rough\s+(.+)$/i` — rough gem pattern. -/
def roughCapture (n : List Char) : Option (List Char) :=
  if toLowerL (n.take 5) = str "rough" ∧ (n.drop 5).takeWhile isWsC ≠ [] ∧
      2 ≤ (n.drop 5).length then
    some (trimC (n.drop 5))
  else none

/-- `/^(.+?)\s+gem$/i` — cut gem pattern. -/
def justGemCapture (n : List Char) : Option (List Char) :=
  suffixWordCapture (str "meg") n

/-- The per-category enable flags of the later revision that `deriveTag`
reads (`enable` and `showWhere` are handled by the reconciler, not the
classifier). -/
structure Settings where
  showDarkItems : Bool
  showPotions : Bool
  showLogs : Bool
  showRoots : Bool
  showScrolls : Bool
  ignoreMagicalScrolls : Bool
  showBows : Bool
  showOres : Bool
  showBars : Bool
  showJewelry : Bool
  showGems : Bool
deriving DecidableEq

/-- All categories enabled (the default configuration; `ignoreMagicalScrolls`
is also `true` by default). -/
def allOn : Settings :=
  { showDarkItems := true, showPotions := true, showLogs := true, showRoots := true,
    showScrolls := true, ignoreMagicalScrolls := true, showBows := true,
    showOres := true, showBars := true, showJewelry := true, showGems := true }

/-- `allowed && !allowed.has(k)` — the visibility-filter exclusion test of
the later revision (`allowed` is `undefined` when no filter applies). -/
def excludesCat (allowed : Option (List (List Char))) (k : List Char) : Bool :=
  match allowed with
  | none => false
  | some set => decide (k ∉ set)

/-- The allowed-category set installed for inventory/shop cells in the
`Bank+Bag(Gear Only)` mode: `new Set(["dark", "jewelry", "potion"])`. -/
def gearOnlySet : List (List Char) := [str "dark", str "jewelry", str "potion"]

/-
`deriveTag` of the later revision: the rule chain is split into one
definition per rule block, each calling the next block where the JS
control flow falls through.  `return null` inside a block is `none`
(classification stops); falling off a block continues with the next rule.
-/

/-- Rule 7 (gems): `rough` form first, then the `<type> gem` form
(`rough || justGem`); abbreviation via `GEM_MAP` else `capitalize3`. -/
def tryGems (n : List Char) (allowed : Option (List (List Char))) (s : Settings) :
    Option (List Char) :=
  if s.showGems then
    if excludesCat allowed (str "gem") then none
    else
      match (roughCapture n).orElse (fun _ => justGemCapture n) with
      | some g =>
        some (match lookupL gemMap (toLowerL g) with
              | some v => v
              | none => capitalize3 g)
      | none => none
  else none

/-- Rule 6 (jewelry): the Monk's Necklace outlier, then the
`<metal> <gem> necklace` form with `(s)`/`(g)` metal suffix. -/
def tryJewelry (n : List Char) (allowed : Option (List (List Char))) (s : Settings) :
    Option (List Char) :=
  if s.showJewelry then
    if excludesCat allowed (str "jewelry") then none
    else if monkTest n then some (str "Monk")
    else
      match jewCapture n with
      | some (isGold, mid) =>
        let suf := if isGold then str "(g)" else str "(s)"
        let gemAbbr := match lookupL gemMap (toLowerL mid) with
                       | some v => v
                       | none => capitalize3 mid
        some (gemAbbr ++ ' ' :: suf)
      | none => tryGems n allowed s
  else tryGems n allowed s

/-- Rule 5c (bars): pig iron bar explicitly excluded, then the
`<type> bar` form via `barMap` else `capitalize3`. -/
def tryBars (n : List Char) (allowed : Option (List (List Char))) (s : Settings) :
    Option (List Char) :=
  if s.showBars then
    if excludesCat allowed (str "bar") then none
    else if pigIronTest n then none
    else
      match barCapture n with
      | some t =>
        some (match lookupL barMap (toLowerL t) with
              | some v => v
              | none => capitalize3 t)
      | none => tryJewelry n allowed s
  else tryJewelry n allowed s

/-- Rule 5b (ores): exact coal, then `<metal> nugget`, then `<type> ore`
via `oreMap` else `capitalize3`. -/
def tryOres (n : List Char) (allowed : Option (List (List Char))) (s : Settings) :
    Option (List Char) :=
  if s.showOres then
    if excludesCat allowed (str "ore") then none
    else if coalTest n then some (str "Coal")
    else
      match nuggetMatch n with
      | some isGold => some (if isGold then str "Gold" else str "Silv")
      | none =>
        match oreCapture n with
        | some t =>
          some (match lookupL oreMap (toLowerL t) with
                | some v => v
                | none => capitalize3 t)
        | none => tryBars n allowed s
  else tryBars n allowed s

/-- Rule 5 (bows): `(unstrung )?<type> bow`; manual table else
`capitalize3`, with a `" (u)"` suffix when the unstrung group matched. -/
def tryBows (n : List Char) (allowed : Option (List (List Char))) (s : Settings) :
    Option (List Char) :=
  if s.showBows then
    match bowMatch n with
    | some (isUnstrung, ty) =>
      if excludesCat allowed (str "bow") then none
      else
        let base := match lookupL manualBow (toLowerL ty) with
                    | some v => v
                    | none => capitalize3 ty
        some (if isUnstrung then base ++ str " (u)" else base)
    | none => tryOres n allowed s
  else tryOres n allowed s

/-- Rule 4 (scrolls, singular in the later revision): magical prefixes
are abbreviated unless `ignoreMagicalScrolls` suppresses them; otherwise
the log-like empty/override/capitalize3 policy. -/
def tryScroll (n : List Char) (allowed : Option (List (List Char))) (s : Settings) :
    Option (List Char) :=
  match scrollCapture n with
  | some pfx =>
    if s.showScrolls then
      if excludesCat allowed (str "scroll") then none
      else
        match lookupL scrollMagical (toLowerL pfx) with
        | some abbr => if s.ignoreMagicalScrolls then none else some abbr
        | none =>
          if pfx = [] then some (str "Norm")
          else
            some (match lookupL manualScroll (toLowerL pfx) with
                  | some v => v
                  | none => capitalize3 pfx)
    else tryBows n allowed s
  | none => tryBows n allowed s

/-- Rule 3 (roots): empty/override/capitalize3 policy. -/
def tryRoot (n : List Char) (allowed : Option (List (List Char))) (s : Settings) :
    Option (List Char) :=
  match rootCapture n with
  | some pfx =>
    if s.showRoots then
      if excludesCat allowed (str "root") then none
      else if pfx = [] then some (str "Norm")
      else
        some (match lookupL manualRoot (toLowerL pfx) with
              | some v => v
              | none => capitalize3 pfx)
    else tryScroll n allowed s
  | none => tryScroll n allowed s

/-- Rule 2 (logs): empty/override/capitalize3 policy. -/
def tryLogs (n : List Char) (allowed : Option (List (List Char))) (s : Settings) :
    Option (List Char) :=
  match logsCapture n with
  | some pfx =>
    if s.showLogs then
      if excludesCat allowed (str "logs") then none
      else if pfx = [] then some (str "Norm")
      else
        some (match lookupL manualLogs (toLowerL pfx) with
              | some v => v
              | none => capitalize3 pfx)
    else tryRoot n allowed s
  | none => tryRoot n allowed s

/-- Rule 1 (potions): `potion of <type> (<doses>)`; `POTION_MAP`, then the
manual potion table, then `capitalize3`. -/
def tryPotion (n : List Char) (allowed : Option (List (List Char))) (s : Settings) :
    Option (List Char) :=
  match potionCapture n with
  | some (ty, doses) =>
    if s.showPotions then
      if excludesCat allowed (str "potion") then none
      else
        let mapped := match lookupL potionMap (toLowerL ty) with
                      | some v => v
                      | none =>
                        match lookupL manualPotion (toLowerL ty) with
                        | some v => v
                        | none => capitalize3 ty
        some (mapped ++ ' ' :: '(' :: (doses ++ [')']))
    else tryLogs n allowed s
  | none => tryLogs n allowed s

/-- Rule 0 (dark items): exact lower-case lookup; when the filter excludes
the dark category the whole block is skipped (this rule, unlike the
others, falls through on exclusion). -/
def tryDark (n : List Char) (allowed : Option (List (List Char))) (s : Settings) :
    Option (List Char) :=
  if s.showDarkItems && !excludesCat allowed (str "dark") then
    match lookupL darkTable (toLowerL n) with
    | some t => some t
    | none => tryPotion n allowed s
  else tryPotion n allowed s

/-- `deriveTag(name, allowed?)` of the later revision. -/
def deriveTag (name : List Char) (allowed : Option (List (List Char)))
    (s : Settings) : Option (List Char) :=
  tryDark (trimC name) allowed s

/-- A token capitalisation step of the later revision's `formatTag`:
empty tokens kept, tokens starting with `(` kept verbatim, otherwise
first character upper-case and the rest lower-case. -/
def capToken (t : List Char) : List Char :=
  match t with
  | [] => []
  | c :: rest => if c = '(' then c :: rest else Char.toUpper c :: rest.map Char.toLower

/-- JS `String.prototype.split(/\s+/)`: splits at maximal whitespace runs,
producing an empty leading/trailing piece when the string starts/ends with
whitespace. -/
def splitWsAux (cur : List Char) (l : List Char) : List (List Char) :=
  match l with
  | [] => [cur.reverse]
  | c :: rest =>
    if isWsC c then cur.reverse :: splitWsAux [] (rest.dropWhile isWsC)
    else splitWsAux (c :: cur) rest
termination_by l.length
decreasing_by
  · simp only [List.length_cons]
    have := (List.dropWhile_suffix (l := rest) isWsC).length_le
    omega
  · simp [List.length_cons]

/-- JS `tag.split(/\s+/)`. -/
def splitWs (l : List Char) : List (List Char) := splitWsAux [] l

/-- JS `Array.prototype.join(' ')`. -/
def joinSp : List (List Char) → List Char
  | [] => []
  | [t] => t
  | t :: rest => t ++ ' ' :: joinSp rest

/-- `formatTag` of the later revision: split on whitespace, capitalise
each token except those starting with `(`, re-join with single spaces. -/
def formatTag (tag : List Char) : List Char :=
  joinSp ((splitWs tag).map capToken)

/-- The per-category enable flags of the earlier revision (no dark-item
category, no visibility filter). -/
structure SettingsOld where
  showPotions : Bool
  showLogs : Bool
  showRoots : Bool
  showScrolls : Bool
  ignoreMagicalScrolls : Bool
  showBows : Bool
  showOres : Bool
  showBars : Bool
  showJewelry : Bool
  showGems : Bool
deriving DecidableEq

/-- All categories of the earlier revision enabled. -/
def allOnOld : SettingsOld :=
  { showPotions := true, showLogs := true, showRoots := true, showScrolls := true,
    ignoreMagicalScrolls := true, showBows := true, showOres := true,
    showBars := true, showJewelry := true, showGems := true }

/-- Earlier revision, rule 7 (gems) — identical to the later one apart
from the absent filter. -/
def tryGemsOld (n : List Char) (s : SettingsOld) : Option (List Char) :=
  if s.showGems then
    match (roughCapture n).orElse (fun _ => justGemCapture n) with
    | some g =>
      some (match lookupL gemMap (toLowerL g) with
            | some v => v
            | none => capitalize3 g)
    | none => none
  else none

/-- Earlier revision, rule 6 (jewelry). -/
def tryJewelryOld (n : List Char) (s : SettingsOld) : Option (List Char) :=
  if s.showJewelry then
    if monkTest n then some (str "Monk")
    else
      match jewCapture n with
      | some (isGold, mid) =>
        let suf := if isGold then str "(g)" else str "(s)"
        let gemAbbr := match lookupL gemMap (toLowerL mid) with
                       | some v => v
                       | none => capitalize3 mid
        some (gemAbbr ++ ' ' :: suf)
      | none => tryGemsOld n s
  else tryGemsOld n s

/-- Earlier revision, rule 5c (bars): `barMap` has no silver entry. -/
def tryBarsOld (n : List Char) (s : SettingsOld) : Option (List Char) :=
  if s.showBars then
    if pigIronTest n then none
    else
      match barCapture n with
      | some t =>
        some (match lookupL barMapOld (toLowerL t) with
              | some v => v
              | none => capitalize3 t)
      | none => tryJewelryOld n s
  else tryJewelryOld n s

/-- Earlier revision, rule 5b (ores): the silver-nugget arm is
`capitalize3('Silver')` (which truncates to three characters), and
`oreMap` has no silver entry. -/
def tryOresOld (n : List Char) (s : SettingsOld) : Option (List Char) :=
  if s.showOres then
    if coalTest n then some (str "Coal")
    else
      match nuggetMatch n with
      | some isGold => some (if isGold then str "Gold" else capitalize3 (str "Silver"))
      | none =>
        match oreCapture n with
        | some t =>
          some (match lookupL oreMapOld (toLowerL t) with
                | some v => v
                | none => capitalize3 t)
        | none => tryBarsOld n s
  else tryBarsOld n s

/-- Earlier revision, rule 5 (bows). -/
def tryBowsOld (n : List Char) (s : SettingsOld) : Option (List Char) :=
  if s.showBows then
    match bowMatch n with
    | some (isUnstrung, ty) =>
      let base := match lookupL manualBow (toLowerL ty) with
                  | some v => v
                  | none => capitalize3 ty
      some (if isUnstrung then base ++ str " (u)" else base)
    | none => tryOresOld n s
  else tryOresOld n s

/-- Earlier revision, rule 4 (scrolls): plural pattern `<pfx> scrolls`. -/
def tryScrollsOld (n : List Char) (s : SettingsOld) : Option (List Char) :=
  match scrollsCapture n with
  | some pfx =>
    if s.showScrolls then
      match lookupL scrollMagical (toLowerL pfx) with
      | some abbr => if s.ignoreMagicalScrolls then none else some abbr
      | none =>
        if pfx = [] then some (str "Norm")
        else
          some (match lookupL manualScroll (toLowerL pfx) with
                | some v => v
                | none => capitalize3 pfx)
    else tryBowsOld n s
  | none => tryBowsOld n s

/-- Earlier revision, rule 3 (roots). -/
def tryRootOld (n : List Char) (s : SettingsOld) : Option (List Char) :=
  match rootCapture n with
  | some pfx =>
    if s.showRoots then
      if pfx = [] then some (str "Norm")
      else
        some (match lookupL manualRoot (toLowerL pfx) with
              | some v => v
              | none => capitalize3 pfx)
    else tryScrollsOld n s
  | none => tryScrollsOld n s

/-- Earlier revision, rule 2 (logs). -/
def tryLogsOld (n : List Char) (s : SettingsOld) : Option (List Char) :=
  match logsCapture n with
  | some pfx =>
    if s.showLogs then
      if pfx = [] then some (str "Norm")
      else
        some (match lookupL manualLogs (toLowerL pfx) with
              | some v => v
              | none => capitalize3 pfx)
    else tryRootOld n s
  | none => tryRootOld n s

/-- Earlier revision, rule 1 (potions). -/
def tryPotionOld (n : List Char) (s : SettingsOld) : Option (List Char) :=
  match potionCapture n with
  | some (ty, doses) =>
    if s.showPotions then
      let mapped := match lookupL potionMap (toLowerL ty) with
                    | some v => v
                    | none =>
                      match lookupL manualPotion (toLowerL ty) with
                      | some v => v
                      | none => capitalize3 ty
      some (mapped ++ ' ' :: '(' :: (doses ++ [')']))
    else tryLogsOld n s
  | none => tryLogsOld n s

/-- `deriveTag(name)` of the earlier revision (no dark rule, no filter). -/
def deriveTagOld (name : List Char) (s : SettingsOld) : Option (List Char) :=
  tryPotionOld (trimC name) s

/-- JS `\w` — ASCII word characters. -/
def jsWordChar (c : Char) : Bool :=
  ('a' ≤ c && c ≤ 'z') || ('A' ≤ c && c ≤ 'Z') || ('0' ≤ c && c ≤ '9') || c = '_'

/-- JS `[a-z]` under the `i` flag — ASCII letters. -/
def jsAsciiLetter (c : Char) : Bool :=
  ('a' ≤ c && c ≤ 'z') || ('A' ≤ c && c ≤ 'Z')

/-- Left-to-right scan of `tag.replace(/\b([a-z])(\w*)/gi, upper+lower)`
from the earlier revision's `formatTag`: at a word boundary (tracked by
whether the previous character was a word character) an ASCII letter and
its maximal `\w*` run are rewritten to upper-then-lower; other characters
pass through.  After a match the scanner resumes right after the consumed
run with the boundary state "inside a word". -/
def formatTagOldAux (prevWord : Bool) (l : List Char) : List Char :=
  match l with
  | [] => []
  | c :: rest =>
    if !prevWord && jsAsciiLetter c then
      Char.toUpper c :: ((rest.takeWhile jsWordChar).map Char.toLower ++
        formatTagOldAux true (rest.dropWhile jsWordChar))
    else c :: formatTagOldAux (jsWordChar c) rest
termination_by l.length
decreasing_by
  · simp only [List.length_cons]
    have := (List.dropWhile_suffix (l := rest) jsWordChar).length_le
    omega
  · simp [List.length_cons]

/-- `formatTag` of the earlier revision. -/
def formatTagOld (tag : List Char) : List Char := formatTagOldAux false tag

/-
Overlay-reconciler model (later revision).  A badge element is modelled by
its text content and the typography properties copied from the "amount"
element (collapsed into one opaque value); a cell's resolved tag host is
modelled by its computed-position state, the marker-attributed badge
children that `:scope > .hs-inventory-item__tag[data-hs-tag-overlay]`
would return (in document order), and the typography of the resolved
amount element (if any).  `applyTag`'s DOM effects on the host are
reproduced step by step; the write counter counts the DOM mutations that
change state (element creation/removal, a text assignment — which the
code performs only when the text differs —, the position patch, and a
typography change; re-assigning an identical typography value is not a
state change).
-/

structure BadgeEl where
  text : List Char
  typo : Option (List Char)
deriving DecidableEq

structure HostEl where
  posStatic : Bool
  badges : List BadgeEl
  amountTypo : Option (List Char)
deriving DecidableEq

/-- The three-way "Show Where" mode. -/
inductive Mode where
  | bankOnly
  | gearOnly
  | all
deriving DecidableEq

/-- The resolution environment of one `applyTag(cell)` invocation: the
`data-slot` attribute, whether the slot resolves to an item, the resolved
display name, which scoped container the cell sits in, the mode and the
classifier settings.  (`resolveItemFromCell` / `resolveItemName` read
external game state; their outcome for this cell is the environment.) -/
structure CellEnv where
  slotAttr : Option (List Char)
  itemPresent : Bool
  name : Option (List Char)
  inInventory : Bool
  inShop : Bool
  mode : Mode
  settings : Settings
deriving DecidableEq

/-- `removeBadge`: remove the first marker badge under the host, if any. -/
def removeBadgeH (h : HostEl) : HostEl × Nat :=
  match h.badges with
  | [] => (h, 0)
  | _ :: rest => ({ h with badges := rest }, 1)

/-- `syncBadgeTypography`: copy the amount element's typography onto the
badge (counted as a write only when it changes the badge). -/
def syncTypo (amount : Option (List Char)) (b : BadgeEl) : BadgeEl × Nat :=
  match amount with
  | none => (b, 0)
  | some t => if b.typo = some t then (b, 0) else ({ b with typo := some t }, 1)

/-- The classifier verdict of one cell, exactly the early-return chain of
`applyTag` up to `formatTag`: missing slot attribute (or empty string),
unresolved item, unresolved name (or empty string), the Bank-Only mode
block, a falsy `deriveTag` result (`null` or the empty string) all yield
`none` (= the `removeBadge` path); otherwise the formatted display tag. -/
def cellVerdict (env : CellEnv) : Option (List Char) :=
  match env.slotAttr with
  | none => none
  | some [] => none
  | some _ =>
    if env.itemPresent then
      match env.name with
      | none => none
      | some [] => none
      | some nm =>
        if env.mode = Mode.bankOnly ∧ (env.inInventory ∨ env.inShop) then none
        else
          let allowed := if env.mode = Mode.gearOnly ∧ (env.inInventory ∨ env.inShop)
                         then some gearOnlySet else none
          match deriveTag nm allowed env.settings with
          | none => none
          | some [] => none
          | some tg => some (formatTag tg)
    else none

/-- The badge-reconciliation tail of `applyTag`: locate or create the
marker badge (patching a static host to `position: relative` on
creation), mirror the amount typography, and set the text only when it
differs.  Returns the updated host and the state-changing write count. -/
def reconcileBadge (h : HostEl) (displayTag : List Char) : HostEl × Nat :=
  match h.badges with
  | [] =>
    let posW : Nat := if h.posStatic then 1 else 0
    let b0 : BadgeEl := { text := [], typo := none }
    let s1 := syncTypo h.amountTypo b0
    let s2 : BadgeEl × Nat :=
      if s1.1.text = displayTag then (s1.1, 0)
      else ({ s1.1 with text := displayTag }, 1)
    ({ h with posStatic := false, badges := [s2.1] }, 1 + posW + s1.2 + s2.2)
  | b :: rest =>
    let s1 := syncTypo h.amountTypo b
    let s2 : BadgeEl × Nat :=
      if s1.1.text = displayTag then (s1.1, 0)
      else ({ s1.1 with text := displayTag }, 1)
    ({ h with badges := s2.1 :: rest }, s1.2 + s2.2)

/-- One `applyTag(cell)` invocation on the cell's host. -/
def applyTagCell (env : CellEnv) (h : HostEl) : HostEl × Nat :=
  match cellVerdict env with
  | none => removeBadgeH h
  | some d => reconcileBadge h d

/-
Plugin lifecycle model for the teardown claim.  The system state carries
the badge hosts of the document, the injected stylesheet, the structural
observer, the pending scheduled scan and the plugin's live subscriptions.
-/

structure SysState where
  hosts : List HostEl
  styleInjected : Bool
  observerOn : Bool
  rafPending : Bool
  subs : List Nat
deriving DecidableEq

/-- `start()`: inject the stylesheet, register the subscriptions the
external objects support, attach the observer fallback and schedule a
scan. -/
def startP (availSubs : List Nat) (s : SysState) : SysState :=
  { s with styleInjected := true, observerOn := true, rafPending := true,
           subs := availSubs }

/-- A scan applying `applyTag` to every cell (one environment per host). -/
def scanP (envs : List CellEnv) (s : SysState) : SysState :=
  { s with hosts := List.zipWith (fun e h => (applyTagCell e h).1) envs s.hosts }

/-- `stop()`: release every subscription, disconnect the observer, cancel
a pending scheduled scan, remove the injected stylesheet and remove every
element matching `.hs-inventory-item__tag[data-hs-tag-overlay]`.  (The
`position: relative` patch applied to hosts by `applyTag` is not
touched.) -/
def stopP (s : SysState) : SysState :=
  { hosts := s.hosts.map (fun h => { h with badges := [] }),
    styleInjected := false, observerOn := false, rafPending := false, subs := [] }

/-- Number of elements bearing the plugin's marker attribute that remain
in the document. -/
def markerCount (s : SysState) : Nat :=
  (s.hosts.map (fun h => h.badges.length)).sum

/-
Exception-isolation model of the scan loop (`rescan` iterating `applyTag`
with its all-enclosing `try { ... } catch (e) { /* silent */ }`).  The
per-cell body is a parameter: given a cell and the document state it
returns the state its DOM mutations reached together with the exception
it raised, if any (mutations made before a throw persist, as in JS).
-/

/-- `applyTag` with its catch-all: the body's exception is swallowed and
its partial effects kept. -/
def applyTagCaught {Cell Doc Err : Type} (body : Cell → Doc → Doc × Option Err)
    (c : Cell) (d : Doc) : Doc := (body c d).1

/-- `rescan`: `querySelectorAll(...).forEach((el) => this.applyTag(el))`. -/
def rescanP {Cell Doc Err : Type} (body : Cell → Doc → Doc × Option Err)
    (cells : List Cell) (d : Doc) : Doc :=
  cells.foldl (fun s c => applyTagCaught body c s) d

/-- The same scan loop without the per-cell catch: the first exception
aborts the remaining cells and escapes. -/
def rescanNoCatch {Cell Doc Err : Type} (body : Cell → Doc → Doc × Option Err) :
    List Cell → Doc → Except Err Doc
  | [], d => Except.ok d
  | c :: rest, d =>
    match body c d with
    | (d', none) => rescanNoCatch body rest d'
    | (_, some e) => Except.error e

/-- The token-capitalisation behaviour exactly as the specification words
it (spec-side definition for the refinement comparison): each token is
capitalised — first letter upper, rest lower — except that a token
beginning with `(` is preserved verbatim. -/
def specCapToken (t : List Char) : List Char :=
  match t with
  | [] => []
  | c :: rest => if c = '(' then c :: rest else Char.toUpper c :: rest.map Char.toLower

/-- A badge host whose computed position is `static`, with no badge yet
and an amount element to copy typography from. -/
def probeHost : HostEl :=
  { posStatic := true, badges := [], amountTypo := some (str "amt") }

/-- A document with a single fresh cell host and no plugin artefacts. -/
def probeDoc : SysState :=
  { hosts := [probeHost], styleInjected := false, observerOn := false,
    rafPending := false, subs := [] }

/-- A cell environment that resolves to the item name "Pine Logs" in an
inventory cell with every category enabled and no restrictive mode. -/
def probeEnv : CellEnv :=
  { slotAttr := some (str "0"), itemPresent := true, name := some (str "Pine Logs"),
    inInventory := true, inShop := false, mode := Mode.all, settings := allOn }

/-- A per-cell scan body for the exception-isolation witness: every cell
increments the document counter, and cell `1` additionally throws. -/
def c6Body : Nat → Nat → Nat × Option Unit :=
  fun c d => (d + 1, if c = 1 then some () else none)

/-
Helper lemmas.
-/

-- Stage fall-through lemmas: when a rule's pattern does not match (or its
-- block cannot fire), the chain continues with the next rule, no matter
-- which flags are set.

lemma tryDark_fall (n : List Char) (a : Option (List (List Char))) (s : Settings)
    (hm : lookupL darkTable (toLowerL n) = none) :
    tryDark n a s = tryPotion n a s := by
  unfold tryDark
  rw [hm]
  split <;> rfl

lemma tryPotion_fall (n : List Char) (a : Option (List (List Char))) (s : Settings)
    (hm : potionCapture n = none) :
    tryPotion n a s = tryLogs n a s := by
  unfold tryPotion
  rw [hm]

lemma tryLogs_fall (n : List Char) (a : Option (List (List Char))) (s : Settings)
    (hm : logsCapture n = none) :
    tryLogs n a s = tryRoot n a s := by
  unfold tryLogs
  rw [hm]

lemma tryRoot_fall (n : List Char) (a : Option (List (List Char))) (s : Settings)
    (hm : rootCapture n = none) :
    tryRoot n a s = tryScroll n a s := by
  unfold tryRoot
  rw [hm]

lemma tryScroll_fall (n : List Char) (a : Option (List (List Char))) (s : Settings)
    (hm : scrollCapture n = none) :
    tryScroll n a s = tryBows n a s := by
  unfold tryScroll
  rw [hm]

lemma tryBows_fall (n : List Char) (a : Option (List (List Char))) (s : Settings)
    (hm : bowMatch n = none) :
    tryBows n a s = tryOres n a s := by
  unfold tryBows
  rw [hm]
  split <;> rfl

lemma tryOres_fall (n : List Char) (a : Option (List (List Char))) (s : Settings)
    (h0 : excludesCat a (str "ore") = false) (h1 : coalTest n = false)
    (h2 : nuggetMatch n = none) (h3 : oreCapture n = none) :
    tryOres n a s = tryBars n a s := by
  unfold tryOres
  rw [h0, h1, h2, h3]
  split <;> simp

lemma tryPotionOld_fall (n : List Char) (s : SettingsOld)
    (hm : potionCapture n = none) :
    tryPotionOld n s = tryLogsOld n s := by
  unfold tryPotionOld
  rw [hm]

lemma tryLogsOld_fall (n : List Char) (s : SettingsOld)
    (hm : logsCapture n = none) :
    tryLogsOld n s = tryRootOld n s := by
  unfold tryLogsOld
  rw [hm]

lemma tryRootOld_fall (n : List Char) (s : SettingsOld)
    (hm : rootCapture n = none) :
    tryRootOld n s = tryScrollsOld n s := by
  unfold tryRootOld
  rw [hm]

lemma tryScrollsOld_fall (n : List Char) (s : SettingsOld)
    (hm : scrollsCapture n = none) :
    tryScrollsOld n s = tryBowsOld n s := by
  unfold tryScrollsOld
  rw [hm]

lemma tryBowsOld_fall (n : List Char) (s : SettingsOld)
    (hm : bowMatch n = none) :
    tryBowsOld n s = tryOresOld n s := by
  unfold tryBowsOld
  rw [hm]
  split <;> rfl

-- String-analysis lemmas used by the universal root-rule theorem.

lemma dropWhile_head_false (pred : Char → Bool) :
    ∀ (l : List Char) (c : Char) (t : List Char),
      l.dropWhile pred = c :: t → pred c = false := by
  intro l
  induction l with
  | nil => intro c t h; simp [List.dropWhile] at h
  | cons a l ih =>
    intro c t h
    rw [List.dropWhile_cons] at h
    by_cases ha : pred a
    · rw [if_pos ha] at h; exact ih _ _ h
    · rw [if_neg ha] at h
      injection h with h1 _
      subst h1
      simpa using ha

lemma trimC_head_false (p : List Char) (hp : trimC p = p) (c : Char) (t : List Char)
    (hpc : p = c :: t) : isWsC c = false := by
  apply dropWhile_head_false isWsC (trimRightC p) c t
  have : (trimRightC p).dropWhile isWsC = trimC p := rfl
  rw [this, hp, hpc]

lemma trimC_append_space (p : List Char) : trimC (p ++ [' ']) = trimC p := by
  unfold trimC trimRightC
  rw [List.reverse_append]
  simp [List.dropWhile_cons, isWsC]

lemma lookupL_append_suffix_none (table : List (List Char × List Char))
    (suf q : List Char) (h : ∀ kv ∈ table, ¬ suf <:+ kv.1) :
    lookupL table (q ++ suf) = none := by
  induction table with
  | nil => rfl
  | cons kv rest ih =>
    obtain ⟨k, v⟩ := kv
    unfold lookupL
    rw [if_neg, ih (fun x hx => h x (List.mem_cons_of_mem _ hx))]
    intro hEq
    exact h (k, v) (List.mem_cons_self _ _) (hEq ▸ List.suffix_append q suf)

lemma potionCapture_head_ne (n : List Char) (c : Char) (x : List Char)
    (hrev : n.reverse = c :: x) (hc : c ≠ ')') : potionCapture n = none := by
  unfold potionCapture
  rw [hrev]
  split
  · next r1 heq =>
    injection heq with h1 _
    exact absurd h1 hc
  · rfl

lemma suffixStarCapture_ne (w n : List Char)
    (h : toLowerL (n.reverse.take w.length) ≠ w) : suffixStarCapture w n = none := by
  unfold suffixStarCapture
  rw [if_neg h]

lemma rootCore_cons_ws (c : Char) (x : List Char) (hc : isWsC c = true) :
    rootCore (c :: x) = some (trimC ((c :: x)).reverse) := by
  simp [rootCore, hc]

-- Lemmas about joining and re-splitting whitespace-free tokens, used by
-- the display-formatting theorem.

lemma splitWsAux_nws_append (t : List Char) (ht : ∀ ch ∈ t, isWsC ch = false) :
    ∀ (cur l : List Char), splitWsAux cur (t ++ l) = splitWsAux (t.reverse ++ cur) l := by
  induction t with
  | nil => intro cur l; simp
  | cons a t ih =>
    intro cur l
    have ha : isWsC a = false := ht a (List.mem_cons_self _ _)
    rw [List.cons_append]
    rw [show splitWsAux cur (a :: (t ++ l)) =
      if isWsC a then cur.reverse :: splitWsAux [] ((t ++ l).dropWhile isWsC)
      else splitWsAux (a :: cur) (t ++ l) from by rw [splitWsAux]]
    rw [if_neg (by simp [ha])]
    rw [ih (fun ch hch => ht ch (List.mem_cons_of_mem _ hch)) (a :: cur) l]
    congr 1
    rw [List.reverse_cons, List.append_assoc, List.singleton_append]

lemma splitWs_single (t : List Char) (ht : ∀ ch ∈ t, isWsC ch = false) :
    splitWs t = [t] := by
  unfold splitWs
  rw [show t = t ++ [] from (List.append_nil t).symm, splitWsAux_nws_append t ht [] []]
  rw [show splitWsAux (t.reverse ++ []) [] = [(t.reverse ++ []).reverse] from by
    rw [splitWsAux]]
  simp

lemma joinSp_cons_cons (t r : List Char) (rest : List (List Char)) :
    joinSp (t :: r :: rest) = t ++ ' ' :: joinSp (r :: rest) := by
  rw [joinSp]
  simp

lemma joinSp_head_nws (r : List Char) (rest : List (List Char)) (c : Char) (tl : List Char)
    (hr : r = c :: tl) (hc : isWsC c = false) :
    (joinSp (r :: rest)).dropWhile isWsC = joinSp (r :: rest) := by
  cases rest with
  | nil =>
    rw [show joinSp [r] = r from by rw [joinSp], hr, List.dropWhile_cons, if_neg (by simp [hc])]
  | cons r2 rest2 =>
    rw [joinSp_cons_cons, hr, List.cons_append, List.dropWhile_cons, if_neg (by simp [hc])]

lemma splitWs_joinSp (toks : List (List Char)) (h0 : toks ≠ [])
    (hne : ∀ t ∈ toks, t ≠ [])
    (hws : ∀ t ∈ toks, ∀ ch ∈ t, isWsC ch = false) :
    splitWs (joinSp toks) = toks := by
  induction toks with
  | nil => exact absurd rfl h0
  | cons t rest ih =>
    cases rest with
    | nil =>
      rw [show joinSp [t] = t from by rw [joinSp]]
      exact splitWs_single t (hws t (List.mem_cons_self _ _))
    | cons r rest2 =>
      rw [joinSp_cons_cons]
      unfold splitWs
      rw [splitWsAux_nws_append t (hws t (List.mem_cons_self _ _)) [] _]
      rw [show splitWsAux (t.reverse ++ []) (' ' :: joinSp (r :: rest2)) =
        if isWsC ' ' then (t.reverse ++ []).reverse ::
          splitWsAux [] ((joinSp (r :: rest2)).dropWhile isWsC)
        else splitWsAux (' ' :: (t.reverse ++ [])) (joinSp (r :: rest2)) from by
          rw [splitWsAux]]
      rw [if_pos (by decide)]
      obtain ⟨c, tl, hr⟩ : ∃ c tl, r = c :: tl := by
        cases hrr : r with
        | nil => exact absurd hrr (hne r (List.mem_cons_of_mem _ (List.mem_cons_self _ _)))
        | cons a b => exact ⟨a, b, rfl⟩
      rw [joinSp_head_nws r rest2 c tl hr
        (hws r (List.mem_cons_of_mem _ (List.mem_cons_self _ _)) c (hr ▸ List.mem_cons_self _ _))]
      rw [show splitWsAux [] (joinSp (r :: rest2)) = splitWs (joinSp (r :: rest2)) from rfl]
      rw [ih (by simp) (fun x hx => hne x (List.mem_cons_of_mem _ hx))
        (fun x hx => hws x (List.mem_cons_of_mem _ hx))]
      simp

-- Reconciler lemmas.

lemma removeBadgeH_idem (h : HostEl) (hb : h.badges.length ≤ 1) :
    removeBadgeH (removeBadgeH h).1 = ((removeBadgeH h).1, 0) ∧
    (removeBadgeH h).1.badges.length = 0 := by
  cases hbl : h.badges with
  | nil => simp [removeBadgeH, hbl]
  | cons b rest =>
    have hrest : rest = [] := by
      rw [hbl] at hb
      simp only [List.length_cons] at hb
      exact List.length_eq_zero.mp (by omega)
    subst hrest
    simp [removeBadgeH, hbl]

lemma reconcileBadge_idem (h : HostEl) (d : List Char) (hb : h.badges.length ≤ 1) :
    reconcileBadge (reconcileBadge h d).1 d = ((reconcileBadge h d).1, 0) ∧
    (reconcileBadge h d).1.badges.length = 1 := by
  cases hbl : h.badges with
  | nil =>
    cases amt : h.amountTypo with
    | none =>
      simp only [reconcileBadge, hbl, amt, syncTypo]
      split_ifs <;> simp_all [reconcileBadge, syncTypo, amt]
    | some t =>
      simp only [reconcileBadge, hbl, amt, syncTypo]
      split_ifs <;> simp_all [reconcileBadge, syncTypo, amt]
  | cons b rest =>
    have hrest : rest = [] := by
      rw [hbl] at hb
      simp only [List.length_cons] at hb
      exact List.length_eq_zero.mp (by omega)
    subst hrest
    cases amt : h.amountTypo with
    | none =>
      simp only [reconcileBadge, hbl, amt, syncTypo]
      split_ifs <;> simp_all [reconcileBadge, syncTypo, amt]
    | some t =>
      simp only [reconcileBadge, hbl, amt, syncTypo]
      split_ifs <;> simp_all [reconcileBadge, syncTypo, amt]

lemma rescanP_cons {Cell Doc Err : Type} (body : Cell → Doc → Doc × Option Err)
    (a : Cell) (l : List Cell) (d : Doc) :
    rescanP body (a :: l) d = rescanP body l ((body a d).1) := by
  simp [rescanP, applyTagCaught]

lemma cellVerdict_probe : cellVerdict probeEnv = some (str "Pine") := by
  have h2 : formatTag (str "Pine") = str "Pine" := by
    simp [formatTag, splitWs, splitWsAux, capToken, isWsC, joinSp, str]
  calc cellVerdict probeEnv = some (formatTag (str "Pine")) := rfl
    _ = some (str "Pine") := by rw [h2]

lemma applyTagCell_probe :
    applyTagCell probeEnv probeHost =
      ({ posStatic := false,
         badges := [{ text := str "Pine", typo := some (str "amt") }],
         amountTypo := some (str "amt") }, 4) := by
  rw [applyTagCell, cellVerdict_probe]
  simp [reconcileBadge, syncTypo, probeHost]
  decide

/-
Claim theorems.
-/

/-- Claim C1, counterexample.  The claim states that under the
`Bank+Bag(Gear Only)` filter (allowed set {dark, jewelry, potion}) a rule
whose category is excluded is merely skipped, so that
`classify("Gold Sapphire Necklace")` with every category enabled still
returns "Sap (g)".  In the code the enabled ore rule executes
`if (allowed && !allowed.has("ore")) return null` before any pattern
test, so classification stops and the name receives no tag. -/
theorem c1_counterexample :
    deriveTag (str "Gold Sapphire Necklace") (some gearOnlySet) allOn = none := by
  decide

/-- Claim C1, amended.  Under the Gear-Only filter a matched rule whose
category is excluded returns no tag (it does not fall through), and each
of the ore/bar/jewelry/gem blocks returns no tag as soon as its flag is
enabled and its category excluded, before any pattern test.  Hence
"Gold Sapphire Necklace" with every category enabled gets no tag under
the filter; it gets "Sap (g)" when the ore and bar categories are
disabled, and also without any filter. -/
theorem c1_amended :
    deriveTag (str "Gold Sapphire Necklace") (some gearOnlySet) allOn = none ∧
    deriveTag (str "Gold Sapphire Necklace") (some gearOnlySet)
      { allOn with showOres := false, showBars := false } = some (str "Sap (g)") ∧
    deriveTag (str "Gold Sapphire Necklace") none allOn = some (str "Sap (g)") := by
  decide

/-- Claim C2, counterexample.  The claim states that the bare names
"root" and "roots" (empty prefix) are tagged "Norm" when the root
category is enabled; the root pattern `/^(.*?)\s+root(s)?$/i` requires a
whitespace character before `root`, so neither name matches and the
classifier returns no tag (no other rule matches either). -/
theorem c2_counterexample :
    deriveTag (str "root") none allOn = none ∧
    deriveTag (str "roots") none allOn = none := by
  decide

/-- Claim C2, amended.  For every name `<prefix> root` or
`<prefix> roots` with nonempty (trimmed) prefix, the root category
enabled and no visibility filter, the tag is the root override-table
value for the prefix when present, else `capitalize3` of the prefix —
for every setting of the other category flags.  (The bare names
"root"/"roots" do not match the pattern and receive no tag; the
`return 'Norm'` branch of the root rule is unreachable because the
pattern requires whitespace before `root` while the scanned name is
trimmed.) -/
theorem c2_amended (p : List Char) (s : Settings)
    (hp : trimC p = p) (hne : p ≠ []) (hr : s.showRoots = true) :
    deriveTag (p ++ str " root") none s =
      some (match lookupL manualRoot (toLowerL p) with
            | some v => v
            | none => capitalize3 p) ∧
    deriveTag (p ++ str " roots") none s =
      some (match lookupL manualRoot (toLowerL p) with
            | some v => v
            | none => capitalize3 p) := by
  obtain ⟨c, t, hpc⟩ : ∃ c t, p = c :: t := by
    cases p with
    | nil => exact absurd rfl hne
    | cons a b => exact ⟨a, b, rfl⟩
  have hcws : isWsC c = false := trimC_head_false p hp c t hpc
  constructor
  · have hrev : (p ++ str " root").reverse = 't' :: (str "oor " ++ p.reverse) := by
      rw [List.reverse_append, show (str " root").reverse = 't' :: str "oor " from by decide,
        List.cons_append]
    have htrim : trimC (p ++ str " root") = p ++ str " root" := by
      have h1 : (p ++ str " root").reverse.dropWhile isWsC = (p ++ str " root").reverse := by
        rw [hrev, List.dropWhile_cons]
        simp [isWsC]
      have h2 : trimRightC (p ++ str " root") = p ++ str " root" := by
        unfold trimRightC
        rw [h1, List.reverse_reverse]
      unfold trimC trimLeftC
      rw [h2, hpc, List.cons_append, List.dropWhile_cons, if_neg (by simp [hcws])]
    have hdark : lookupL darkTable (toLowerL (p ++ str " root")) = none := by
      have : toLowerL (p ++ str " root") = toLowerL p ++ str " root" := by
        unfold toLowerL
        rw [List.map_append, show (str " root").map Char.toLower = str " root" from by decide]
      rw [this]
      exact lookupL_append_suffix_none _ _ _ (by decide)
    have hpot : potionCapture (p ++ str " root") = none :=
      potionCapture_head_ne _ 't' _ hrev (by decide)
    have hlogs : logsCapture (p ++ str " root") = none := by
      apply suffixStarCapture_ne
      rw [hrev, show (str "sgol").length = 4 from by decide,
        show List.take 4 ('t' :: (str "oor " ++ p.reverse)) =
          't' :: List.take 3 (str "oor " ++ p.reverse) from rfl]
      intro hEq
      rw [show str "sgol" = 's' :: str "gol" from by decide] at hEq
      have := (List.cons_eq_cons.mp hEq).1
      simp [toLowerL] at this
    have hroot : rootCapture (p ++ str " root") = some p := by
      unfold rootCapture
      rw [if_neg, if_pos]
      · have hdrop : List.drop 4 (p ++ str " root").reverse = ' ' :: p.reverse := by
          rw [hrev,
            show List.drop 4 ('t' :: (str "oor " ++ p.reverse)) =
              List.drop 3 (str "oor " ++ p.reverse) from rfl,
            List.drop_append_eq_append_drop,
            show (str "oor ").drop 3 = [' '] from by decide,
            show 3 - (str "oor ").length = 0 from by decide, List.drop_zero,
            List.singleton_append]
        rw [hdrop, rootCore_cons_ws _ _ (by decide),
          List.reverse_cons, List.reverse_reverse, trimC_append_space, hp]
      · rw [hrev,
          show List.take 4 ('t' :: (str "oor " ++ p.reverse)) =
            't' :: List.take 3 (str "oor " ++ p.reverse) from rfl,
          List.take_append_eq_append_take, show (str "oor ").take 3 = str "oor" from by decide,
          show 3 - (str "oor ").length = 0 from by decide, List.take_zero,
          List.append_nil]
        decide
      · rw [hrev,
          show List.take 5 ('t' :: (str "oor " ++ p.reverse)) =
            't' :: List.take 4 (str "oor " ++ p.reverse) from rfl]
        intro hEq
        rw [show str "stoor" = 's' :: str "toor" from by decide] at hEq
        have := (List.cons_eq_cons.mp hEq).1
        simp [toLowerL] at this
    rw [deriveTag, htrim, tryDark_fall _ _ _ hdark, tryPotion_fall _ _ _ hpot,
      tryLogs_fall _ _ _ hlogs]
    unfold tryRoot
    rw [hroot, hr]
    simp only [show excludesCat none (str "root") = false from rfl,
      Bool.false_eq_true, if_false, if_true, if_pos rfl]
    rw [if_neg (by rw [hpc]; simp)]
  · have hrev : (p ++ str " roots").reverse = 's' :: (str "toor " ++ p.reverse) := by
      rw [List.reverse_append, show (str " roots").reverse = 's' :: str "toor " from by decide,
        List.cons_append]
    have htrim : trimC (p ++ str " roots") = p ++ str " roots" := by
      have h1 : (p ++ str " roots").reverse.dropWhile isWsC = (p ++ str " roots").reverse := by
        rw [hrev, List.dropWhile_cons]
        simp [isWsC]
      have h2 : trimRightC (p ++ str " roots") = p ++ str " roots" := by
        unfold trimRightC
        rw [h1, List.reverse_reverse]
      unfold trimC trimLeftC
      rw [h2, hpc, List.cons_append, List.dropWhile_cons, if_neg (by simp [hcws])]
    have hdark : lookupL darkTable (toLowerL (p ++ str " roots")) = none := by
      have : toLowerL (p ++ str " roots") = toLowerL p ++ str " roots" := by
        unfold toLowerL
        rw [List.map_append, show (str " roots").map Char.toLower = str " roots" from by decide]
      rw [this]
      exact lookupL_append_suffix_none _ _ _ (by decide)
    have hpot : potionCapture (p ++ str " roots") = none :=
      potionCapture_head_ne _ 's' _ hrev (by decide)
    have hlogs : logsCapture (p ++ str " roots") = none := by
      apply suffixStarCapture_ne
      rw [hrev, show (str "sgol").length = 4 from by decide,
        show List.take 4 ('s' :: (str "toor " ++ p.reverse)) =
          's' :: List.take 3 (str "toor " ++ p.reverse) from rfl,
        List.take_append_eq_append_take, show (str "toor ").take 3 = str "too" from by decide,
        show 3 - (str "toor ").length = 0 from by decide, List.take_zero, List.append_nil]
      decide
    have hroot : rootCapture (p ++ str " roots") = some p := by
      unfold rootCapture
      rw [if_pos]
      · have hdrop : List.drop 5 (p ++ str " roots").reverse = ' ' :: p.reverse := by
          rw [hrev,
            show List.drop 5 ('s' :: (str "toor " ++ p.reverse)) =
              List.drop 4 (str "toor " ++ p.reverse) from rfl,
            List.drop_append_eq_append_drop,
            show (str "toor ").drop 4 = [' '] from by decide,
            show 4 - (str "toor ").length = 0 from by decide, List.drop_zero,
            List.singleton_append]
        rw [hdrop, rootCore_cons_ws _ _ (by decide),
          List.reverse_cons, List.reverse_reverse, trimC_append_space, hp]
      · rw [hrev,
          show List.take 5 ('s' :: (str "toor " ++ p.reverse)) =
            's' :: List.take 4 (str "toor " ++ p.reverse) from rfl,
          List.take_append_eq_append_take, show (str "toor ").take 4 = str "toor" from by decide,
          show 4 - (str "toor ").length = 0 from by decide, List.take_zero, List.append_nil]
        decide
    rw [deriveTag, htrim, tryDark_fall _ _ _ hdark, tryPotion_fall _ _ _ hpot,
      tryLogs_fall _ _ _ hlogs]
    unfold tryRoot
    rw [hroot, hr]
    simp only [show excludesCat none (str "root") = false from rfl,
      Bool.false_eq_true, if_false, if_true, if_pos rfl]
    rw [if_neg (by rw [hpc]; simp)]

/-- Witness for the amended claim C2 at the concrete prefix "Fiji" with
all categories enabled. -/
theorem c2_witness :
    trimC (str "Fiji") = str "Fiji" ∧ str "Fiji" ≠ [] ∧ allOn.showRoots = true ∧
    (deriveTag (str "Fiji" ++ str " root") none allOn =
      some (match lookupL manualRoot (toLowerL (str "Fiji")) with
            | some v => v
            | none => capitalize3 (str "Fiji")) ∧
     deriveTag (str "Fiji" ++ str " roots") none allOn =
      some (match lookupL manualRoot (toLowerL (str "Fiji")) with
            | some v => v
            | none => capitalize3 (str "Fiji"))) :=
  ⟨by decide, by decide, rfl, c2_amended (str "Fiji") allOn (by decide) (by decide) rfl⟩

/-- Claim C3, counterexample.  The claim states that
`classify("Fire Scroll")` behaves as described "across both revisions";
in the earlier revision the pattern is `/^(.*?)\s*scrolls$/i` (plural
only), so "Fire Scroll" does not match and gets no tag even with the
ignore-magical option off. -/
theorem c3_counterexample :
    deriveTagOld (str "Fire Scroll") { allOnOld with ignoreMagicalScrolls := false }
      = none := by
  decide

/-- Claim C3, amended.  In the later revision (singular pattern),
`classify("Fire Scroll")` is "Fire" with ignore-magical off and no tag
with it on, while the plural "Fire Scrolls" never matches; in the earlier
revision (plural pattern) the same two behaviours hold for
"Fire Scrolls", while the singular "Fire Scroll" gets no tag.  Each
revision accepts exactly one of the two forms, not both. -/
theorem c3_amended :
    deriveTag (str "Fire Scroll") none { allOn with ignoreMagicalScrolls := false }
      = some (str "Fire") ∧
    deriveTag (str "Fire Scroll") none allOn = none ∧
    deriveTag (str "Fire Scrolls") none { allOn with ignoreMagicalScrolls := false }
      = none ∧
    deriveTagOld (str "Fire Scrolls") { allOnOld with ignoreMagicalScrolls := false }
      = some (str "Fire") ∧
    deriveTagOld (str "Fire Scrolls") allOnOld = none ∧
    deriveTagOld (str "Fire Scroll") { allOnOld with ignoreMagicalScrolls := false }
      = none := by
  decide

/-- Claim C4, counterexample.  The claim states that stop fully restores
the pre-start DOM state.  In the run below, start is followed by one
reconcile of a cell whose host had `position: static`; `applyTag`
patches the host to `position: relative` when creating the badge, and
stop never reverts that patch, so the post-stop state differs from the
pre-start state even though every badge, subscription, stylesheet and
pending scan is gone. -/
theorem c4_counterexample :
    stopP (scanP [probeEnv] (startP [7] probeDoc)) ≠ probeDoc ∧
    (stopP (scanP [probeEnv] (startP [7] probeDoc))).hosts.map HostEl.posStatic = [false] ∧
    probeDoc.hosts.map HostEl.posStatic = [true] ∧
    markerCount (stopP (scanP [probeEnv] (startP [7] probeDoc))) = 0 ∧
    (stopP (scanP [probeEnv] (startP [7] probeDoc))).subs = [] := by
  rw [show scanP [probeEnv] (startP [7] probeDoc) =
    { hosts := [(applyTagCell probeEnv probeHost).1], styleInjected := true,
      observerOn := true, rafPending := true, subs := [7] } from by
      simp [scanP, startP, probeDoc]]
  rw [applyTagCell_probe]
  refine ⟨?_, by decide, by decide, by decide, by decide⟩
  intro hEq
  have := congrArg (fun s => s.hosts.map HostEl.posStatic) hEq
  simp [stopP, probeDoc, probeHost] at this

/-- Claim C4, amended.  After stop no element bearing the plugin's marker
attribute remains, no plugin subscription remains, the injected
stylesheet is removed, any pending scheduled scan is cancelled and the
observer is disconnected — for every prior state; however the inline
`position: relative` style that `applyTag` writes onto badge hosts is
not reverted, so the pre-start DOM state is not fully restored in
general (witnessed by the concrete run in the second conjunct). -/
theorem c4_amended :
    (∀ s : SysState, markerCount (stopP s) = 0 ∧ (stopP s).subs = [] ∧
      (stopP s).styleInjected = false ∧ (stopP s).rafPending = false ∧
      (stopP s).observerOn = false) ∧
    (stopP (scanP [probeEnv] (startP [7] probeDoc))).hosts.map HostEl.posStatic ≠
      probeDoc.hosts.map HostEl.posStatic := by
  constructor
  · intro s
    refine ⟨?_, rfl, rfl, rfl, rfl⟩
    simp [markerCount, stopP, List.map_map, List.sum_eq_zero_iff, Function.comp]
  · rw [show scanP [probeEnv] (startP [7] probeDoc) =
      { hosts := [(applyTagCell probeEnv probeHost).1], styleInjected := true,
        observerOn := true, rafPending := true, subs := [7] } from by
        simp [scanP, startP, probeDoc]]
    rw [applyTagCell_probe]
    decide

/-- Claim C5, confirmed.  Running the cell-reconcile step twice with the
same resolution environment performs no state-changing DOM write in the
second run — the badge text is written only when it differs, the
typography assignment re-applies an unchanged value, and no second badge
is created — and the host ends with exactly one marker badge when the
cell classifies to a tag, never two (at most one badge overall). -/
theorem c5_reconcile_idempotent (env : CellEnv) (h : HostEl)
    (hb : h.badges.length ≤ 1) :
    applyTagCell env (applyTagCell env h).1 = ((applyTagCell env h).1, 0) ∧
    (applyTagCell env h).1.badges.length ≤ 1 ∧
    ((cellVerdict env).isSome = true → (applyTagCell env h).1.badges.length = 1) := by
  cases hv : cellVerdict env with
  | none =>
    have := removeBadgeH_idem h hb
    simp only [applyTagCell, hv]
    exact ⟨this.1, by omega, by simp⟩
  | some d =>
    have := reconcileBadge_idem h d hb
    simp only [applyTagCell, hv]
    exact ⟨this.1, by omega, fun _ => this.2⟩

/-- Witness for claim C5 on a fresh static host and a cell resolving to
"Pine Logs". -/
theorem c5_witness :
    probeHost.badges.length ≤ 1 ∧
    (applyTagCell probeEnv (applyTagCell probeEnv probeHost).1 =
      ((applyTagCell probeEnv probeHost).1, 0) ∧
    (applyTagCell probeEnv probeHost).1.badges.length ≤ 1 ∧
    ((cellVerdict probeEnv).isSome = true →
      (applyTagCell probeEnv probeHost).1.badges.length = 1)) :=
  ⟨by decide, c5_reconcile_idempotent probeEnv probeHost (by decide)⟩

/-- Claim C6, confirmed.  In a scan over `l₁ ++ c :: l₂` where the cells
of `l₁` complete without an exception and processing cell `c` raises one,
the catch-all inside `applyTag` confines the exception to `c`'s step:
the actual scan still processes every cell of `l₂` from the partial
state `c` reached, whereas the same loop without the per-cell catch
aborts with that exception and never reaches `l₂`; in particular no
exception escapes the scan. -/
theorem c6_scan_isolation {Cell Doc Err : Type} (body : Cell → Doc → Doc × Option Err)
    (l₁ l₂ : List Cell) (c : Cell) (d : Doc) (e : Err)
    (h₁ : rescanNoCatch body l₁ d = Except.ok (rescanP body l₁ d))
    (h₂ : (body c (rescanP body l₁ d)).2 = some e) :
    rescanP body (l₁ ++ c :: l₂) d =
      rescanP body l₂ ((body c (rescanP body l₁ d)).1) ∧
    rescanNoCatch body (l₁ ++ c :: l₂) d = Except.error e := by
  constructor
  · simp [rescanP, List.foldl_append, applyTagCaught]
  · induction l₁ generalizing d with
    | nil =>
      simp only [List.nil_append]
      rw [rescanNoCatch]
      rcases hba : body c d with ⟨d', oe⟩
      simp only [rescanP, List.foldl_nil] at h₂
      rw [hba] at h₂
      simp at h₂
      subst h₂
      rfl
    | cons a l₁ ih =>
      rw [List.cons_append, rescanNoCatch]
      rcases hba : body a d with ⟨d', oe⟩
      rw [rescanNoCatch, hba] at h₁
      cases oe with
      | some e' => simp at h₁
      | none =>
        have hstep : rescanP body (a :: l₁) d = rescanP body l₁ d' := by
          rw [rescanP_cons, hba]
        rw [hstep] at h₁ h₂
        exact ih d' h₁ h₂

/-- Witness for claim C6: three cells, the middle one throwing. -/
theorem c6_witness :
    rescanNoCatch c6Body [0] 0 = Except.ok (rescanP c6Body [0] 0) ∧
    (c6Body 1 (rescanP c6Body [0] 0)).2 = some () ∧
    (rescanP c6Body ([0] ++ 1 :: [2]) 0 =
      rescanP c6Body [2] ((c6Body 1 (rescanP c6Body [0] 0)).1) ∧
    rescanNoCatch c6Body ([0] ++ 1 :: [2]) 0 = Except.error ()) :=
  ⟨rfl, rfl, c6_scan_isolation c6Body [0] [2] 1 0 () rfl rfl⟩

/-- Claim C7, counterexample.  The claim states that tokens beginning
with `(` — in particular "(g)" — are unchanged by the display-formatting
step; the earlier revision's `formatTag`
(`tag.replace(/\b([a-z])(\w*)/gi, ...)`) capitalises the letter inside
the parentheses, turning "Sap (g)" into "Sap (G)". -/
theorem c7_counterexample :
    formatTagOld (str "Sap (g)") = str "Sap (G)" ∧ str "Sap (G)" ≠ str "Sap (g)" := by
  constructor
  · simp [formatTagOld, formatTagOldAux, jsAsciiLetter, jsWordChar, str]
  · decide

/-- Claim C7, amended.  The later revision's `formatTag` capitalises each
whitespace-separated token (first letter upper, rest lower) and preserves
tokens beginning with `(` verbatim: on any space-joined list of nonempty
whitespace-free tokens it acts exactly as the specification's per-token
description `specCapToken`.  The earlier revision's regex-based formatter
preserves only digit tokens such as "(4)" and capitalises letter tokens
inside parentheses ("Sap (g)" becomes "Sap (G)"). -/
theorem c7_amended (toks : List (List Char)) (h0 : toks ≠ [])
    (hne : ∀ t ∈ toks, t ≠ [])
    (hws : ∀ t ∈ toks, ∀ ch ∈ t, isWsC ch = false) :
    formatTag (joinSp toks) = joinSp (toks.map specCapToken) ∧
    formatTag (str "Sap (g)") = str "Sap (g)" ∧
    formatTag (str "fish (4)") = str "Fish (4)" ∧
    formatTagOld (str "Fish (4)") = str "Fish (4)" ∧
    formatTagOld (str "Sap (g)") = str "Sap (G)" := by
  refine ⟨?_, ?_, ?_, ?_, ?_⟩
  · unfold formatTag
    rw [splitWs_joinSp toks h0 hne hws]
    rw [show capToken = specCapToken from funext fun t => rfl]
  · simp [formatTag, splitWs, splitWsAux, capToken, isWsC, joinSp, str]
  · simp [formatTag, splitWs, splitWsAux, capToken, isWsC, joinSp, str]
  · simp [formatTagOld, formatTagOldAux, jsAsciiLetter, jsWordChar, str]
  · simp [formatTagOld, formatTagOldAux, jsAsciiLetter, jsWordChar, str]

/-- Witness for the amended claim C7 at the token list ["Sap", "(g)"]. -/
theorem c7_witness :
    [str "Sap", str "(g)"] ≠ ([] : List (List Char)) ∧
    (formatTag (joinSp [str "Sap", str "(g)"]) =
      joinSp ([str "Sap", str "(g)"].map specCapToken) ∧
    formatTag (str "Sap (g)") = str "Sap (g)" ∧
    formatTag (str "fish (4)") = str "Fish (4)" ∧
    formatTagOld (str "Fish (4)") = str "Fish (4)" ∧
    formatTagOld (str "Sap (g)") = str "Sap (G)") :=
  ⟨by decide, c7_amended [str "Sap", str "(g)"] (by decide) (by decide) (by decide)⟩

/-- Claim C8, counterexample.  The claim states that a silver nugget is
tagged "Silv"; in the earlier revision the silver arm is
`capitalize3('Silver')`, which truncates to three characters, so the tag
is "Sil". -/
theorem c8_counterexample :
    deriveTagOld (str "Silver Nugget") allOnOld = some (str "Sil") ∧
    str "Sil" ≠ str "Silv" := by
  constructor
  · decide
  · decide

/-- Claim C8, amended.  With the ore category enabled and no visibility
filter, in the later revision a gold nugget is tagged "Gold" and a
silver nugget "Silv", for every setting of the other flags; in the
earlier revision the gold tag is the same but the silver tag is "Sil"
(`capitalize3('Silver')`). -/
theorem c8_amended (s : Settings) (so : SettingsOld)
    (hs : s.showOres = true) (hso : so.showOres = true) :
    deriveTag (str "Silver Nugget") none s = some (str "Silv") ∧
    deriveTag (str "Gold Nugget") none s = some (str "Gold") ∧
    deriveTagOld (str "Silver Nugget") so = some (str "Sil") ∧
    deriveTagOld (str "Gold Nugget") so = some (str "Gold") := by
  refine ⟨?_, ?_, ?_, ?_⟩
  · rw [deriveTag, show trimC (str "Silver Nugget") = str "Silver Nugget" from by decide,
      tryDark_fall _ _ _ (by decide), tryPotion_fall _ _ _ (by decide),
      tryLogs_fall _ _ _ (by decide), tryRoot_fall _ _ _ (by decide),
      tryScroll_fall _ _ _ (by decide), tryBows_fall _ _ _ (by decide)]
    unfold tryOres
    rw [hs]
    simp only [show excludesCat none (str "ore") = false from rfl,
      show coalTest (str "Silver Nugget") = false from by decide,
      show nuggetMatch (str "Silver Nugget") = some false from by decide,
      Bool.false_eq_true, if_false, if_true]
  · rw [deriveTag, show trimC (str "Gold Nugget") = str "Gold Nugget" from by decide,
      tryDark_fall _ _ _ (by decide), tryPotion_fall _ _ _ (by decide),
      tryLogs_fall _ _ _ (by decide), tryRoot_fall _ _ _ (by decide),
      tryScroll_fall _ _ _ (by decide), tryBows_fall _ _ _ (by decide)]
    unfold tryOres
    rw [hs]
    simp only [show excludesCat none (str "ore") = false from rfl,
      show coalTest (str "Gold Nugget") = false from by decide,
      show nuggetMatch (str "Gold Nugget") = some true from by decide,
      Bool.false_eq_true, if_false, if_true]
  · rw [deriveTagOld, show trimC (str "Silver Nugget") = str "Silver Nugget" from by decide,
      tryPotionOld_fall _ _ (by decide), tryLogsOld_fall _ _ (by decide),
      tryRootOld_fall _ _ (by decide), tryScrollsOld_fall _ _ (by decide),
      tryBowsOld_fall _ _ (by decide)]
    unfold tryOresOld
    rw [hso]
    simp only [show coalTest (str "Silver Nugget") = false from by decide,
      show nuggetMatch (str "Silver Nugget") = some false from by decide,
      Bool.false_eq_true, if_false, if_true]
    decide
  · rw [deriveTagOld, show trimC (str "Gold Nugget") = str "Gold Nugget" from by decide,
      tryPotionOld_fall _ _ (by decide), tryLogsOld_fall _ _ (by decide),
      tryRootOld_fall _ _ (by decide), tryScrollsOld_fall _ _ (by decide),
      tryBowsOld_fall _ _ (by decide)]
    unfold tryOresOld
    rw [hso]
    simp only [show coalTest (str "Gold Nugget") = false from by decide,
      show nuggetMatch (str "Gold Nugget") = some true from by decide,
      Bool.false_eq_true, if_false, if_true]

/-- Witness for the amended claim C8 with all categories enabled in both
revisions. -/
theorem c8_witness :
    allOn.showOres = true ∧ allOnOld.showOres = true ∧
    (deriveTag (str "Silver Nugget") none allOn = some (str "Silv") ∧
    deriveTag (str "Gold Nugget") none allOn = some (str "Gold") ∧
    deriveTagOld (str "Silver Nugget") allOnOld = some (str "Sil") ∧
    deriveTagOld (str "Gold Nugget") allOnOld = some (str "Gold")) :=
  ⟨rfl, rfl, c8_amended allOn allOnOld rfl rfl⟩

/-- Claim C9, confirmed.  `classify("Pig Iron Bar")` with the bar
category enabled returns no tag: the explicit
`/^pig\s+iron\s+bar$/i` exclusion fires before the generic bar rule, and
no other rule matches the name whatever the other category flags are. -/
theorem c9_pig_iron_excluded (s : Settings) (h : s.showBars = true) :
    deriveTag (str "Pig Iron Bar") none s = none := by
  rw [deriveTag, show trimC (str "Pig Iron Bar") = str "Pig Iron Bar" from by decide,
    tryDark_fall _ _ _ (by decide), tryPotion_fall _ _ _ (by decide),
    tryLogs_fall _ _ _ (by decide), tryRoot_fall _ _ _ (by decide),
    tryScroll_fall _ _ _ (by decide), tryBows_fall _ _ _ (by decide),
    tryOres_fall _ _ _ (by decide) (by decide) (by decide) (by decide)]
  unfold tryBars
  rw [h]
  simp only [show excludesCat none (str "bar") = false from rfl,
    show pigIronTest (str "Pig Iron Bar") = true from by decide,
    Bool.false_eq_true, if_false, if_true]

/-- Witness for claim C9 with all categories enabled. -/
theorem c9_witness :
    allOn.showBars = true ∧ deriveTag (str "Pig Iron Bar") none allOn = none :=
  ⟨rfl, c9_pig_iron_excluded allOn rfl⟩

/-- Claim C10, confirmed.  With the bow category enabled and no filter,
the exact name "Unstrung Bow" is tagged "Uns": the optional
`(unstrung\s+)?` group cannot match (nothing would remain for
`(.+?)\s+bow`), so the engine backtracks and "unstrung" itself is
captured as the bow type, and no " (u)" suffix is appended; the suffix
appears when a separate type token stands between "unstrung" and "bow",
as in "Unstrung Pine Bow" ↦ "Pine (u)". -/
theorem c10_unstrung_bow (s : Settings) (h : s.showBows = true) :
    deriveTag (str "Unstrung Bow") none s = some (str "Uns") ∧
    deriveTag (str "Unstrung Pine Bow") none s = some (str "Pine (u)") := by
  constructor
  · rw [deriveTag, show trimC (str "Unstrung Bow") = str "Unstrung Bow" from by decide,
      tryDark_fall _ _ _ (by decide), tryPotion_fall _ _ _ (by decide),
      tryLogs_fall _ _ _ (by decide), tryRoot_fall _ _ _ (by decide),
      tryScroll_fall _ _ _ (by decide)]
    unfold tryBows
    rw [h]
    simp only [show bowMatch (str "Unstrung Bow") = some (false, str "Unstrung") from by decide,
      show excludesCat none (str "bow") = false from rfl,
      Bool.false_eq_true, if_false, if_true]
    decide
  · rw [deriveTag, show trimC (str "Unstrung Pine Bow") = str "Unstrung Pine Bow" from by decide,
      tryDark_fall _ _ _ (by decide), tryPotion_fall _ _ _ (by decide),
      tryLogs_fall _ _ _ (by decide), tryRoot_fall _ _ _ (by decide),
      tryScroll_fall _ _ _ (by decide)]
    unfold tryBows
    rw [h]
    simp only [show bowMatch (str "Unstrung Pine Bow") = some (true, str "Pine") from by decide,
      show excludesCat none (str "bow") = false from rfl,
      Bool.false_eq_true, if_false, if_true]
    decide

/-- Witness for claim C10 with all categories enabled. -/
theorem c10_witness :
    allOn.showBows = true ∧
    (deriveTag (str "Unstrung Bow") none allOn = some (str "Uns") ∧
    deriveTag (str "Unstrung Pine Bow") none allOn = some (str "Pine (u)")) :=
  ⟨rfl, c10_unstrung_bow allOn rfl⟩
